import Mathlib

/-
Verification of the RenameMedia repository (Rename.py) against its
natural-language specification.

Strings are modelled as lists of characters (`Str`); every Python string
operation used by the code (str.replace with single-character needles,
str.split, f-string concatenation, regex searches for the fixed patterns
appearing in the source) is implemented directly on `Str`.  The filesystem
is modelled as a list of (normalized path, kind) entries; `os.rename` is the
only fallible primitive (it fails when the source is missing — a failure on
every platform — or when the destination exists, the Windows behaviour; the
script's key-file branch shows Windows is a supported platform).
-/

/-- Python strings, modelled as lists of characters. -/
abbrev Str := List Char

/-- Coerce a Lean string literal to the `Str` model. -/
def strL (s : String) : Str := s.data

/-- Decimal rendering of a natural number, as Python's str(int). -/
def natToStr (n : Nat) : Str := Nat.toDigits 10 n

/-- Python `name.replace(c, r)` for a single-character needle `c`:
every occurrence of `c` is replaced by the string `r`. -/
def replaceChar (c : Char) (r : Str) : Str → Str
  | [] => []
  | x :: xs => (if x = c then r else [x]) ++ replaceChar c r xs

/-- Whether `re.search(r"\.{1,}\?", name)` matches: the string contains a
dot immediately followed by a question mark (one dot suffices for the
one-or-more-dots pattern to match). -/
def hasDotQmark : Str → Bool
  | [] => false
  | [_] => false
  | a :: b :: rest => (a = '.' && b = '?') || hasDotQmark (b :: rest)

/-- The reserved device names of RenameMedia.remove_invalid_characters
(Rename.py lines 87-91), in source order. -/
def invalid_filenames : List Str :=
  [strL "AUX",
   strL "COM1", strL "COM2", strL "COM3", strL "COM4", strL "COM5",
   strL "COM6", strL "COM7", strL "COM8", strL "COM9", strL "CON",
   strL "LPT1", strL "LPT2", strL "LPT3", strL "LPT4", strL "LPT5",
   strL "LPT6", strL "LPT7", strL "LPT8", strL "LPT9",
   strL "NUL",
   strL "PRN"]

/-- The substitution pass of RenameMedia.remove_invalid_characters
(Rename.py lines 85, 93-97): the `invalid_characters` dict is iterated in
insertion order; each key is replaced by its mapped value, except `?`,
which is replaced by `""` when the current name matches `\.{1,}\?` and by
its mapped value `"."` otherwise. -/
def substPass (name : Str) : Str :=
  let name := replaceChar '<' [] name
  let name := replaceChar '>' [] name
  let name := replaceChar ':' (strL " -") name
  let name := replaceChar '\"' [] name
  let name := replaceChar '/' [] name
  let name := replaceChar '\\' [] name
  let name := replaceChar '|' [] name
  let name := if hasDotQmark name then replaceChar '?' [] name
              else replaceChar '?' (strL ".") name
  replaceChar '*' [] name

/-- RenameMedia.remove_invalid_characters (Rename.py lines 82-102):
the substitution pass followed by the reserved-device-name fixup. -/
def remove_invalid_characters (name : Str) : Str :=
  let name := substPass name
  if name ∈ invalid_filenames then name ++ strL "." else name

/-- The keys of the `invalid_characters` mapping (Rename.py line 85). -/
def mappedChars : List Char := ['<', '>', ':', '\"', '/', '\\', '|', '?', '*']

/-- Python `s.split(c)` for a single-character separator. -/
def splitOnChar (c : Char) : Str → List Str
  | [] => [[]]
  | x :: xs =>
    if x = c then [] :: splitOnChar c xs
    else
      match splitOnChar c xs with
      | [] => [[x]]
      | h :: t => (x :: h) :: t

/-- Whether `needle` occurs as a contiguous substring of the argument;
`re.search(rf".*{year}.*", name)` for the decimal digits of `year` is
exactly this check. -/
def isSubstr (needle : Str) : Str → Bool
  | [] => needle.isPrefixOf []
  | c :: rest => needle.isPrefixOf (c :: rest) || isSubstr needle rest

/-- Numeric value of a digit string (the strings fed to it are validated
to be all digits first). -/
def digitsToNat (s : Str) : Nat :=
  s.foldl (fun a c => a * 10 + (c.toNat - 48)) 0

/-- Model of `datetime.strptime(d, "%Y-%M-%d").year`.  The code's format
string uses `%M` (minute) where a month would be expected; `.year` only
reads the leading `%Y` field, so the result is the value of the 4-digit
first dash-separated field.  Parsing fails (None here, ValueError in
Python) unless the string is three dash-separated fields: 4 digits, then
1-2 digits at most 59 (a minute), then 1-2 digits in 1..31 (a day). -/
def strptimeYear (d : Str) : Option Nat :=
  match splitOnChar '-' d with
  | [y, mi, dy] =>
    if y.length = 4 && y.all Char.isDigit &&
       1 ≤ mi.length && mi.length ≤ 2 && mi.all Char.isDigit &&
       digitsToNat mi ≤ 59 &&
       1 ≤ dy.length && dy.length ≤ 2 && dy.all Char.isDigit &&
       1 ≤ digitsToNat dy && digitsToNat dy ≤ 31
    then some (digitsToNat y) else none
  | _ => none

/-- One search result record, as consumed by IdentifyMedia.
An `Option` field is `none` when the key is absent from the dict; a
present-but-empty string (`some []`) is falsy in Python. -/
structure Record where
  id : Nat
  media_type : Option Str
  name : Option Str
  title : Option Str
  release_date : Option Str
  first_air_date : Option Str
deriving DecidableEq

/-- IdentifyMedia.SUPPORTED_TYPES (Rename.py line 243). -/
def SUPPORTED_TYPES : List Str := [strL "movie", strL "tv"]

/-- The date value chosen by IdentifyMedia.__evaluate_results
(Rename.py lines 416-420): release_date when present and truthy,
else first_air_date when present and truthy, else None. -/
def chooseDate (r : Record) : Option Str :=
  match r.release_date with
  | some d =>
    if d ≠ [] then some d
    else
      match r.first_air_date with
      | some d2 => if d2 ≠ [] then some d2 else none
      | none => none
  | none =>
    match r.first_air_date with
    | some d2 => if d2 ≠ [] then some d2 else none
    | none => none

/-- The loop of IdentifyMedia.__evaluate_results (Rename.py lines
400-429) over the remaining records, with `acc` the list built so far
(`self.potential`).  A year-matching survivor is inserted at index 0, any
other survivor is appended.  The filtering branches only skip a record
(the `continue` statements sit under `if self.debug`, but a record in a
filtering branch never reaches the `else` that adds it, so the candidate
list is the same with or without debug).  A record without a
`media_type` key raises KeyError at `result['media_type']`; a surviving
record with no usable date raises TypeError at `strptime(None, ...)`;
a date that does not fit the format raises ValueError. -/
def evaluate_results_aux (folder : Str) (acc : List Record) :
    List Record → Except Str (List Record)
  | [] => .ok acc
  | r :: rs =>
    match r.media_type with
    | none => .error (strL "KeyError: media_type")
    | some mt =>
      if ¬ SUPPORTED_TYPES.contains mt then
        evaluate_results_aux folder acc rs
      else if r.name == some ([] : Str) || r.title == some ([] : Str) then
        evaluate_results_aux folder acc rs
      else if r.release_date == some ([] : Str) ||
              r.first_air_date == some ([] : Str) then
        evaluate_results_aux folder acc rs
      else
        match chooseDate r with
        | none => .error (strL "TypeError: strptime argument must be str")
        | some d =>
          match strptimeYear d with
          | none => .error (strL "ValueError: time data does not match format")
          | some y =>
            if isSubstr (natToStr y) folder then
              evaluate_results_aux folder (r :: acc) rs
            else
              evaluate_results_aux folder (acc ++ [r]) rs

/-- IdentifyMedia.__evaluate_results (Rename.py lines 394-429), given the
record list under the `'results'` key (when the key is absent the method
leaves `self.potential` untouched; the claims quantify over result
lists, so the embedding takes the list).  `self.potential` is reset to []
and rebuilt. -/
def evaluate_results (results : List Record) (original_folder_name : Str) :
    Except Str (List Record) :=
  evaluate_results_aux original_folder_name [] results

/-- Whether a record passes all three filtering branches of
__evaluate_results (supported media type, no present-but-empty
name/title, no present-but-empty date). -/
def survives (r : Record) : Bool :=
  match r.media_type with
  | none => false
  | some mt =>
    if ¬ SUPPORTED_TYPES.contains mt then false
    else if r.name == some ([] : Str) || r.title == some ([] : Str) then false
    else if r.release_date == some ([] : Str) ||
            r.first_air_date == some ([] : Str) then false
    else true

/-- Whether the record's parsed release year appears as a substring of the
original folder name. -/
def yearMatches (folder : Str) (r : Record) : Bool :=
  match chooseDate r with
  | none => false
  | some d =>
    match strptimeYear d with
    | none => false
    | some y => isSubstr (natToStr y) folder

/-- Records that __evaluate_results can process without raising: the
media_type key is present, and if the record survives filtering its
chosen date parses. -/
def recOk (r : Record) : Bool :=
  r.media_type.isSome &&
  (!survives r ||
    (match chooseDate r with
     | none => false
     | some d => (strptimeYear d).isSome))

/-- The manual-entry final pass of IdentifyMedia.identify (Rename.py
lines 312-317).  After the direct search, a falsy result set skips
evaluation and the while-loop repeats; a truthy result set reaches
`self.__evaluate_results(results)` — a call that passes one argument to
the two-parameter method `__evaluate_results(self, results,
original_folder_name)`, which Python rejects with a TypeError before any
evaluation or confirmation happens. -/
def identify_final_pass (results : Option (List Record)) : Except Str Unit :=
  match results with
  | none => .ok ()
  | some _ =>
    .error (strL "TypeError: __evaluate_results() missing 1 required positional argument")

/-- Kind of a filesystem entry. -/
inductive FKind where
  | dir : FKind
  | file : FKind
deriving DecidableEq

/-- The filesystem, as a list of (full path, kind) entries.  Paths are
stored with no trailing separator (os.sep is "/"). -/
structure FS where
  entries : List (Str × FKind)
deriving DecidableEq

/-- Strip trailing path separators (queries such as os.path.isdir accept
a trailing separator). -/
def normPath (p : Str) : Str :=
  ((p.reverse).dropWhile (fun c => c = '/')).reverse

/-- Python os.path.join for two components. -/
def osJoin (a b : Str) : Str :=
  if b.head? = some '/' then b
  else if a = [] then b
  else if a.getLast? = some '/' then a ++ b
  else a ++ '/' :: b

/-- os.path.isdir. -/
def isdir (fs : FS) (p : Str) : Bool :=
  decide ((normPath p, FKind.dir) ∈ fs.entries)

/-- os.path.isfile. -/
def isfile (fs : FS) (p : Str) : Bool :=
  decide ((normPath p, FKind.file) ∈ fs.entries)

/-- os.path.exists (for the paths the script passes, a directory or file
at the normalized path). -/
def pexists (fs : FS) (p : Str) : Bool :=
  isdir fs p || isfile fs p

/-- The name of `q` as a direct child of directory `base` (`base` is
normalized by the caller): `q = base ++ "/" ++ name` with `name`
nonempty and slash-free. -/
def childNameOf (base q : Str) : Option Str :=
  if (base ++ ['/']).isPrefixOf q then
    let rest := q.drop (base.length + 1)
    if rest = [] then none
    else if rest.contains '/' then none
    else some rest
  else none

/-- os.listdir: names of the direct children of a directory. -/
def listdir (fs : FS) (p : Str) : List Str :=
  fs.entries.filterMap (fun e => childNameOf (normPath p) e.1)

/-- os.mkdir / os.makedirs: record the new directory.  (Parents are not
materialized: in every modelled call site the parent already exists or
the later lookups never consult it.) -/
def mkdirFS (fs : FS) (p : Str) : FS :=
  ⟨fs.entries ++ [(normPath p, FKind.dir)]⟩

/-- Move an entry from under `a` to under `b` (both normalized). -/
def renameEntry (a b : Str) (e : Str × FKind) : Str × FKind :=
  if e.1 = a then (b, e.2)
  else if (a ++ ['/']).isPrefixOf e.1 then
    (b ++ '/' :: e.1.drop (a.length + 1), e.2)
  else e

/-- os.rename.  Fails when the source does not exist (FileNotFoundError,
every platform) or the destination exists (FileExistsError, the Windows
behaviour; the script's key-file branch supports win32).  On success the
entry and everything beneath it move. -/
def osRename (fs : FS) (src dst : Str) : Except Str FS :=
  if ¬ pexists fs src then .error (strL "FileNotFoundError")
  else if pexists fs dst then .error (strL "FileExistsError")
  else .ok ⟨fs.entries.map (renameEntry (normPath src) (normPath dst))⟩

/-- RenameMedia.__remove_unicode / IdentifyMedia.__remove_unicode
(Rename.py lines 62-80): replace a fixed set of problem code points
(en-dash, right single quote, four accented u variants; \xf9 is listed
twice in the source, a harmless repeat). -/
def remove_unicode (text : Str) : Str :=
  let text := replaceChar '–' ['-'] text
  let text := replaceChar '’' ['\''] text
  let text := replaceChar 'ù' ['u'] text
  let text := replaceChar 'ù' ['u'] text
  let text := replaceChar 'ú' ['u'] text
  let text := replaceChar 'û' ['u'] text
  replaceChar 'ü' ['u'] text

/-- RenameMedia.__rename (Rename.py lines 45-60): the destination passes
through __remove_unicode, then os.rename runs with every exception caught
and logged (UnicodeEncodeError cannot arise in this model; both modelled
failures are OSError, logged with the OSError message).  The method
always returns; on failure the filesystem is unchanged. -/
def rename (fs : FS) (from_location to_location : Str) : FS × List Str :=
  let to_location := remove_unicode to_location
  match osRename fs from_location to_location with
  | .ok fs' => (fs', [])
  | .error reason =>
    (fs, [strL "OSError for " ++ to_location ++ strL " For:\n " ++ reason])

/-- RenameMedia.__rename_base_folder (Rename.py lines 32-43): compute
`"{name} ({year})"`, join it to the folder's parent (str(Path(*parts[:-1]))
plus os.sep appended), print the plan, rename unless the target exists or
validate is set, and — when not validating — hand back the new folder
path whether or not the rename happened or succeeded.
Returns (fs, folder, media_folder_name, printed lines). -/
def parentPath (p : Str) : Str :=
  let absFlag := p.head? = some '/'
  let comps := (splitOnChar '/' p).filter (fun c => c ≠ [])
  let comps := comps.dropLast
  if absFlag then '/' :: List.intercalate ['/'] comps
  else if comps = [] then ['.']
  else List.intercalate ['/'] comps

/-- `os.path.join(str(Path(*Path(folder).parts[:-1])), media_folder_name)
+ os.path.sep` (Rename.py line 35). -/
def newBaseFolder (folder media_folder_name : Str) : Str :=
  osJoin (parentPath folder) media_folder_name ++ ['/']

def rename_base_folder (validate : Bool) (fs : FS) (folder name : Str)
    (year : Nat) : FS × Str × Str × List Str :=
  let media_folder_name := name ++ strL " (" ++ natToStr year ++ strL ")"
  let new_folder_name := newBaseFolder folder media_folder_name
  let plog := strL "Renaming:\n" ++ folder ++ strL "\nto:\n" ++ new_folder_name
  let res := if !pexists fs new_folder_name && !validate
    then rename fs folder new_folder_name else (fs, [])
  let folder' := if !validate then new_folder_name else folder
  (res.1, folder', media_folder_name, plog :: res.2)

/-- Leftmost match of the RESOLUTIONS pattern `(720p|1080p|2160p)`
(Rename.py line 18). -/
def findResolution : Str → Option Str
  | [] => none
  | c :: rest =>
    if (strL "720p").isPrefixOf (c :: rest) then some (strL "720p")
    else if (strL "1080p").isPrefixOf (c :: rest) then some (strL "1080p")
    else if (strL "2160p").isPrefixOf (c :: rest) then some (strL "2160p")
    else findResolution rest

/-- Python os.path.basename: the part after the last slash. -/
def basenameP (p : Str) : Str :=
  (splitOnChar '/' p).getLastD []

/-- Python os.path.dirname (posixpath): everything before the last slash,
with trailing slashes stripped unless the head is all slashes. -/
def dirnameP (p : Str) : Str :=
  let parts := splitOnChar '/' p
  if parts.length ≤ 1 then []
  else
    let head := List.intercalate ['/'] parts.dropLast ++ ['/']
    if head.all (fun c => c = '/') then head else normPath head

/-- RenameMedia.__get_resolution (Rename.py lines 235-240): search the
item for a resolution marker, falling back to the basename of the parent
of `folder` (the default folder argument is the empty string). -/
def get_resolution (item : Str) (folder : Str) : Str :=
  match findResolution item with
  | some r => strL " [" ++ r ++ strL "]"
  | none =>
    match findResolution (basenameP (dirnameP folder)) with
    | some r => strL " [" ++ r ++ strL "]"
    | none => []

/-- RenameMedia.convert_int_to_str (Rename.py lines 25-30). -/
def convert_int_to_str (n : Nat) : Str :=
  if n < 10 then '0' :: natToStr n else natToStr n

/-- RenameMedia.INVALID_EXTENSIONS (Rename.py line 17). -/
def INVALID_EXTENSIONS : List Str :=
  [strL "dat", strL "inf", strL "pdx", strL "txt"]

/-- `file.split(".")[-1]`. -/
def fileExtension (file : Str) : Str :=
  (splitOnChar '.' file).getLastD []

/-- `re.sub(fr"\.{extension}$", "", file)` where extension is
`file.split(".")[-1]`: strip the final ".ext" when present (when the file
has no dot the pattern cannot match and the name is unchanged; the
extension is treated literally, as it is in every name the script
handles). -/
def stripExtension (file : Str) : Str :=
  let ext := fileExtension file
  if ('.' :: ext).isSuffixOf file then file.take (file.length - (ext.length + 1))
  else file

/-- `re.search(r"([sS](\d{2})[eE](\d{2}))", name)` at one position:
s/S, two digits, e/E, two digits. -/
def seasonEpisodeAt : Str → Option (Nat × Nat)
  | s :: d1 :: d2 :: e :: d3 :: d4 :: _ =>
    if (s = 's' ∨ s = 'S') ∧ d1.isDigit ∧ d2.isDigit ∧
       (e = 'e' ∨ e = 'E') ∧ d3.isDigit ∧ d4.isDigit
    then some (10 * (d1.toNat - 48) + (d2.toNat - 48),
               10 * (d3.toNat - 48) + (d4.toNat - 48))
    else none
  | _ => none

/-- Leftmost match of the season/episode pattern (Rename.py line 143). -/
def findSeasonEpisode : Str → Option (Nat × Nat)
  | [] => none
  | c :: rest =>
    match seasonEpisodeAt (c :: rest) with
    | some se => some se
    | none => findSeasonEpisode rest

/-- One episode of a season record (only the name is consumed). -/
structure Episode where
  name : Str
deriving DecidableEq

/-- The season record returned by tmdb.get_tv_season, as consumed by
RenameMedia.show. -/
structure SeasonInfo where
  air_date : Str
  episodes : List Episode
deriving DecidableEq

/-- Outcome of tmdb.get_tv_season: either an error envelope with
status_code 404 and a response body, or the season record. -/
inductive SeasonResult where
  | notFound : Str → SeasonResult
  | found : SeasonInfo → SeasonResult

/-- Python `l[i]` with negative-index wrapping; `none` is an IndexError. -/
def pyIndexGet (l : List Episode) (i : Int) : Option Episode :=
  if 0 ≤ i then l.get? i.toNat
  else if 0 ≤ (l.length : Int) + i then l.get? ((l.length : Int) + i).toNat
  else none

/-- One iteration of the per-file loop of RenameMedia.show (Rename.py
lines 135-186) for file `file`, given the (possibly renamed) show folder
`show_folder`, the original folder `folder` (the fallback source of line
180), and the show folder name.  Returns the filesystem, the printed
lines, and the planned name triple (show folder name, season folder
name, new filename) computed at lines 164-168 — the strings the debug
print at line 185 emits.  The only uncaught exception is the IndexError
of `episodes[episode-1]` (reachable only for an E00 file of an empty
season); the season-404 and episode-count branches skip the file. -/
def showProcessFile (validate debug : Bool) (lookup : Nat → Nat → SeasonResult)
    (fs : FS) (show_folder folder show_folder_name : Str) (id : Nat)
    (file : Str) : Except Str (FS × List Str × List (Str × Str × Str)) :=
  let extension := fileExtension file
  if extension ∈ INVALID_EXTENSIONS then .ok (fs, [], [])
  else
    let file_name := stripExtension file
    match findSeasonEpisode file_name with
    | none => .ok (fs, [], [])
    | some (season, episode) =>
      let resolution := match findResolution file_name with
        | some r => strL " [" ++ r ++ strL "]"
        | none => []
      match lookup id season with
      | .notFound resp =>
        .ok (fs, [strL "Requested season " ++ natToStr season ++
          strL " for id " ++ natToStr id ++ strL " and got", resp], [])
      | .found info =>
        let season_year := (splitOnChar '-' info.air_date).headD []
        if info.episodes.length < episode then
          .ok (fs, [strL "Episode S" ++ convert_int_to_str season ++ strL "E" ++
            convert_int_to_str episode ++
            strL " doesn't appear to exist, so skipping."], [])
        else
          match pyIndexGet info.episodes ((episode : Int) - 1) with
          | none => .error (strL "IndexError: list index out of range")
          | some ep =>
            let episode_name := remove_invalid_characters ep.name
            let season_name := remove_invalid_characters
              (if season = 0 then strL "Specials"
               else strL "Season " ++ natToStr season)
            let season_folder_name := season_name ++ strL " (" ++ season_year ++
              strL ")" ++ resolution
            let new_filename := strL "S" ++ convert_int_to_str season ++ strL "E" ++
              convert_int_to_str episode ++ strL " - " ++ episode_name ++
              strL "." ++ extension
            let season_folder := osJoin show_folder season_folder_name
            let step1 := if !isdir fs season_folder then
                (if validate then fs else mkdirFS fs season_folder,
                 [strL "Creating " ++ season_folder])
              else (fs, [])
            let step2 := if validate then (step1.1, [])
              else
                let srcA := osJoin show_folder (file_name ++ strL "." ++ extension)
                let src := if !pexists step1.1 srcA then
                    osJoin folder (file_name ++ strL "." ++ extension)
                  else srcA
                rename step1.1 src (osJoin season_folder new_filename)
            let dbgLogs := if debug then
                [show_folder_name ++ strL " " ++ season_folder_name ++
                 strL " " ++ new_filename]
              else []
            .ok (step2.1, step1.2 ++ step2.2 ++ dbgLogs,
                 [(show_folder_name, season_folder_name, new_filename)])

/-- The per-file loop of RenameMedia.show, threading filesystem, printed
lines and planned triples. -/
def showLoop (validate debug : Bool) (lookup : Nat → Nat → SeasonResult)
    (id : Nat) (show_folder folder show_folder_name : Str) :
    List Str → FS → List Str → List (Str × Str × Str) →
    Except Str (FS × List Str × List (Str × Str × Str))
  | [], fs, logs, planned => .ok (fs, logs, planned)
  | f :: rest, fs, logs, planned =>
    match showProcessFile validate debug lookup fs show_folder folder
        show_folder_name id f with
    | .error e => .error e
    | .ok out =>
      showLoop validate debug lookup id show_folder folder show_folder_name
        rest out.1 (logs ++ out.2.1) (planned ++ out.2.2)

/-- RenameMedia.show (Rename.py lines 104-187).  For a directory item the
file list is gathered before the base-folder rename (files directly
inside, plus one level of subdirectory flattening); for a single file the
show folder is synthesized next to it, created if missing, and the file
is moved in with a bare os.rename (line 131) whose failure propagates —
unlike every move that goes through __rename.  The loop then processes
each file. -/
def showMedia (validate debug : Bool) (lookup : Nat → Nat → SeasonResult)
    (fs : FS) (item : Str) (id : Nat) (show_name : Str) (year : Nat) :
    Except Str (FS × List Str × List (Str × Str × Str)) :=
  let show_name := remove_invalid_characters show_name
  if isdir fs item then
    let folder := item
    let items := listdir fs folder
    let files := List.flatten (items.map (fun it =>
      let path := osJoin folder it
      if isfile fs path then [it]
      else if isdir fs path then (listdir fs path).map (fun sub => osJoin it sub)
      else []))
    let base := rename_base_folder validate fs folder show_name year
    showLoop validate debug lookup id base.2.1 folder base.2.2.1 files base.1
      base.2.2.2 []
  else
    let path := List.intercalate ['/'] (splitOnChar '/' item).dropLast
    let file_name := (splitOnChar '/' item).getLastD []
    let show_folder_name := show_name ++ strL " (" ++ natToStr year ++ strL ")"
    let show_folder := osJoin path show_folder_name
    if validate then
      showLoop true debug lookup id show_folder show_folder show_folder_name
        [file_name] fs [] []
    else
      let fs1 := if !isdir fs show_folder then mkdirFS fs show_folder else fs
      match osRename fs1 item (osJoin show_folder file_name) with
      | .error e => .error e
      | .ok fs2 =>
        showLoop false debug lookup id show_folder show_folder show_folder_name
          [file_name] fs2 [] []

/-- The per-file loop of RenameMedia.movie's directory branch (Rename.py
lines 197-215).  The file list is the snapshot taken by the for
statement; every move goes through __rename, so the loop is total.
Returns the filesystem, printed lines and planned destination names. -/
def movieDirLoop (validate : Bool) (folder movie_folder_name : Str) :
    List Str → FS → List Str → List Str → FS × List Str × List Str
  | [], fs, logs, planned => (fs, logs, planned)
  | file :: rest, fs, logs, planned =>
    let extension := fileExtension file
    if extension ∈ INVALID_EXTENSIONS then
      movieDirLoop validate folder movie_folder_name rest fs logs planned
    else
      let file_name := stripExtension file
      let resolution := get_resolution file_name folder
      let movie_file_name := movie_folder_name ++ resolution ++ strL "." ++ extension
      let rlog := strL "Renaming '" ++ file ++ strL "' to '" ++
        movie_file_name ++ strL "'"
      let step := if validate then (fs, [])
        else rename fs (osJoin folder file) (osJoin folder movie_file_name)
      movieDirLoop validate folder movie_folder_name rest step.1
        (logs ++ rlog :: step.2) (planned ++ [movie_file_name])

/-- RenameMedia.movie (Rename.py lines 189-233).  Every move goes through
__rename and the directory creations are guarded by existence checks, so
the pipeline is total.  Returns the filesystem, the printed lines, and
the planned destination names (the movie_file_name / new_name strings of
lines 210 and 223). -/
def movie (validate : Bool) (fs : FS) (item movie_name : Str) (year : Nat) :
    FS × List Str × List Str :=
  let movie_name := remove_invalid_characters movie_name
  let hdr := [item, movie_name, natToStr year]
  if isdir fs item then
    let base := rename_base_folder validate fs item movie_name year
    let files := listdir base.1 base.2.1
    let out := movieDirLoop validate base.2.1 base.2.2.1 files base.1 [] []
    (out.1, hdr ++ base.2.2.2 ++ out.2.1, out.2.2)
  else
    let base_folder := dirnameP item
    let original_name := basenameP item
    let extension := fileExtension item
    let resolution := get_resolution original_name []
    let folder_name := movie_name ++ strL " (" ++ natToStr year ++ strL ")"
    let new_name := folder_name ++ resolution ++ strL "." ++ extension
    let path := osJoin base_folder folder_name
    let fs1 := if !pexists fs path && !validate then mkdirFS fs path else fs
    let to_location := osJoin path new_name
    let rlog := strL "Renaming '" ++ item ++ strL "' to '" ++ to_location ++ strL "'"
    let step := if validate then (fs1, []) else rename fs1 item to_location
    (step.1, hdr ++ rlog :: step.2, [new_name])

/-- The planned-output component of showProcessFile, which depends only
on the lookup function, id, show folder name and file — not on the
filesystem, the folder paths, validate or debug. -/
def spfPlan (lookup : Nat → Nat → SeasonResult) (id : Nat)
    (show_folder_name : Str) (file : Str) :
    Except Str (List (Str × Str × Str)) :=
  let extension := fileExtension file
  if extension ∈ INVALID_EXTENSIONS then .ok []
  else
    let file_name := stripExtension file
    match findSeasonEpisode file_name with
    | none => .ok []
    | some (season, episode) =>
      let resolution := match findResolution file_name with
        | some r => strL " [" ++ r ++ strL "]"
        | none => []
      match lookup id season with
      | .notFound _ => .ok []
      | .found info =>
        let season_year := (splitOnChar '-' info.air_date).headD []
        if info.episodes.length < episode then .ok []
        else
          match pyIndexGet info.episodes ((episode : Int) - 1) with
          | none => .error (strL "IndexError: list index out of range")
          | some ep =>
            let episode_name := remove_invalid_characters ep.name
            let season_name := remove_invalid_characters
              (if season = 0 then strL "Specials"
               else strL "Season " ++ natToStr season)
            let season_folder_name := season_name ++ strL " (" ++ season_year ++
              strL ")" ++ resolution
            let new_filename := strL "S" ++ convert_int_to_str season ++ strL "E" ++
              convert_int_to_str episode ++ strL " - " ++ episode_name ++
              strL "." ++ extension
            .ok [(show_folder_name, season_folder_name, new_filename)]

/-- The planned names of the whole show loop. -/
def showLoopPlan (lookup : Nat → Nat → SeasonResult) (id : Nat)
    (show_folder_name : Str) : List Str → Except Str (List (Str × Str × Str))
  | [] => .ok []
  | f :: rest =>
    match spfPlan lookup id show_folder_name f with
    | .error e => .error e
    | .ok p =>
      match showLoopPlan lookup id show_folder_name rest with
      | .error e => .error e
      | .ok ps => .ok (p ++ ps)

/-- The planned name for one file of the movie directory loop. -/
def moviePlanOfFile (folder movie_folder_name file : Str) : Option Str :=
  if fileExtension file ∈ INVALID_EXTENSIONS then none
  else some (movie_folder_name ++ get_resolution (stripExtension file) folder ++
    strL "." ++ fileExtension file)

/-- The planned names of the movie directory loop. -/
def movieDirPlan (folder movie_folder_name : Str) (files : List Str) : List Str :=
  files.filterMap (moviePlanOfFile folder movie_folder_name)

theorem mem_replaceChar {x c : Char} {r : Str} :
    ∀ {xs : Str}, x ∈ replaceChar c r xs → x ∈ r ∨ (x ∈ xs ∧ x ≠ c) := by
  intro xs h
  induction xs with
  | nil => simp [replaceChar] at h
  | cons y ys ih =>
    simp only [replaceChar] at h
    rcases List.mem_append.1 h with h1 | h2
    · by_cases hy : y = c
      · subst hy; rw [if_pos rfl] at h1; exact Or.inl h1
      · rw [if_neg hy] at h1
        simp only [List.mem_singleton] at h1
        subst h1
        exact Or.inr ⟨List.mem_cons_self _ _, hy⟩
    · rcases ih h2 with h | ⟨hmem, hne⟩
      · exact Or.inl h
      · exact Or.inr ⟨List.mem_cons_of_mem _ hmem, hne⟩

theorem replaceChar_eq_self {c : Char} {r : Str} :
    ∀ {xs : Str}, (∀ x ∈ xs, x ≠ c) → replaceChar c r xs = xs := by
  intro xs h
  induction xs with
  | nil => rfl
  | cons y ys ih =>
    simp only [replaceChar]
    rw [if_neg (h y (List.mem_cons_self _ _)), List.singleton_append]
    rw [ih (fun x hx => h x (List.mem_cons_of_mem _ hx))]

/-- Every character of the substituted name is either an input character
that is not one of the mapped characters, or one of the characters
introduced by the replacement strings (space, dash, dot). -/
theorem mem_substPass {x : Char} {s : Str} (h : x ∈ substPass s) :
    (x ∈ s ∧ x ∉ mappedChars) ∨ x ∈ [' ', '-', '.'] := by
  simp only [substPass] at h
  rcases mem_replaceChar h with h9 | ⟨h8, hne9⟩
  · simp at h9
  have h7 : x ∈ (let t := replaceChar '|' [] (replaceChar '\\' []
      (replaceChar '/' [] (replaceChar '\"' [] (replaceChar ':' (strL " -")
      (replaceChar '>' [] (replaceChar '<' [] s)))))); t) ∧ x ≠ '?' ∨
      x ∈ strL "." := by
    by_cases hdq : hasDotQmark (replaceChar '|' [] (replaceChar '\\' []
        (replaceChar '/' [] (replaceChar '\"' [] (replaceChar ':' (strL " -")
        (replaceChar '>' [] (replaceChar '<' [] s)))))))
    · rw [if_pos hdq] at h8
      rcases mem_replaceChar h8 with h | h
      · simp at h
      · exact Or.inl h
    · rw [if_neg hdq] at h8
      rcases mem_replaceChar h8 with h | h
      · exact Or.inr h
      · exact Or.inl h
  rcases h7 with ⟨h7, hne8⟩ | hdot
  · rcases mem_replaceChar h7 with h | ⟨h6, hne7⟩
    · simp at h
    rcases mem_replaceChar h6 with h | ⟨h5, hne6⟩
    · simp at h
    rcases mem_replaceChar h5 with h | ⟨h4, hne5⟩
    · simp at h
    rcases mem_replaceChar h4 with h | ⟨h3, hne4⟩
    · simp at h
    rcases mem_replaceChar h3 with h | ⟨h2, hne3⟩
    · right
      have h' : x = ' ' ∨ x = '-' := by simpa [strL] using h
      rcases h' with rfl | rfl <;> simp
    rcases mem_replaceChar h2 with h | ⟨h1, hne2⟩
    · simp at h
    rcases mem_replaceChar h1 with h | ⟨h0, hne1⟩
    · simp at h
    · left
      refine ⟨h0, ?_⟩
      simp only [mappedChars, List.mem_cons, List.not_mem_nil]
      push_neg
      exact ⟨hne1, hne2, hne3, hne4, hne5, hne6, hne7, hne8, hne9, not_false⟩
  · right
    have h' : x = '.' := by simpa [strL] using hdot
    subst h'
    simp

/-- Characters of the substituted name are never mapped characters. -/
theorem substPass_not_mapped {x : Char} {s : Str} (h : x ∈ substPass s) :
    x ∉ mappedChars := by
  rcases mem_substPass h with ⟨_, hn⟩ | hi
  · exact hn
  · intro hm
    simp only [List.mem_cons, List.not_mem_nil, or_false] at hi
    rcases hi with rfl | rfl | rfl <;> simp [mappedChars] at hm

/-- The substitution pass leaves a string with no mapped characters
unchanged. -/
theorem substPass_eq_self {s : Str} (h : ∀ x ∈ s, x ∉ mappedChars) :
    substPass s = s := by
  have hc : ∀ c ∈ mappedChars, ∀ x ∈ s, x ≠ c := by
    intro c hcm x hx heq
    exact h x hx (heq ▸ hcm)
  simp only [substPass]
  rw [replaceChar_eq_self (hc '<' (by simp [mappedChars]))]
  rw [replaceChar_eq_self (hc '>' (by simp [mappedChars]))]
  rw [replaceChar_eq_self (hc ':' (by simp [mappedChars]))]
  rw [replaceChar_eq_self (hc '\"' (by simp [mappedChars]))]
  rw [replaceChar_eq_self (hc '/' (by simp [mappedChars]))]
  rw [replaceChar_eq_self (hc '\\' (by simp [mappedChars]))]
  rw [replaceChar_eq_self (hc '|' (by simp [mappedChars]))]
  by_cases hdq : hasDotQmark s
  · rw [if_pos hdq, replaceChar_eq_self (hc '?' (by simp [mappedChars]))]
    rw [replaceChar_eq_self (hc '*' (by simp [mappedChars]))]
  · rw [if_neg hdq, replaceChar_eq_self (hc '?' (by simp [mappedChars]))]
    rw [replaceChar_eq_self (hc '*' (by simp [mappedChars]))]

/-- The substitution pass is idempotent. -/
theorem substPass_idem (s : Str) : substPass (substPass s) = substPass s :=
  substPass_eq_self (fun _ hx => substPass_not_mapped hx)

/-- The accumulator-generalized behaviour of the __evaluate_results loop:
when every record processes without raising, year-matching survivors pile
up in reverse order in front of the front part `M` of the accumulator,
and the other survivors are appended after the back part `N`. -/
theorem evaluate_results_aux_spec (folder : Str) :
    ∀ (rs M N : List Record), (∀ r ∈ rs, recOk r = true) →
      evaluate_results_aux folder (M ++ N) rs =
        .ok ((rs.filter (fun r => survives r && yearMatches folder r)).reverse
          ++ M ++ (N ++ rs.filter (fun r => survives r && !yearMatches folder r))) := by
  intro rs
  induction rs with
  | nil => intro M N _; simp [evaluate_results_aux]
  | cons r rs ih =>
    intro M N hok
    have hr := hok r (List.mem_cons_self _ _)
    have hrs := fun r hmem => hok r (List.mem_cons_of_mem _ hmem)
    simp only [recOk, Bool.and_eq_true, Option.isSome_iff_exists] at hr
    obtain ⟨⟨mt, hmt⟩, hr2⟩ := hr
    simp only [evaluate_results_aux, hmt]
    by_cases hsupp : SUPPORTED_TYPES.contains mt
    · rw [if_neg (by simpa using hsupp)]
      by_cases hname : (r.name == some ([] : Str) || r.title == some ([] : Str)) = true
      · rw [if_pos hname]
        have hsurv : survives r = false := by
          simp only [survives, hmt]
          rw [if_neg (by simpa using hsupp), if_pos hname]
        rw [ih M N hrs]
        simp [List.filter_cons, hsurv]
      · rw [if_neg hname]
        by_cases hdate : (r.release_date == some ([] : Str) ||
            r.first_air_date == some ([] : Str)) = true
        · rw [if_pos hdate]
          have hsurv : survives r = false := by
            simp only [survives, hmt]
            rw [if_neg (by simpa using hsupp), if_neg hname, if_pos hdate]
          rw [ih M N hrs]
          simp [List.filter_cons, hsurv]
        · rw [if_neg hdate]
          have hsurv : survives r = true := by
            simp only [survives, hmt]
            rw [if_neg (by simpa using hsupp), if_neg hname, if_neg hdate]
          rw [hsurv] at hr2
          simp only [Bool.not_true, Bool.false_or] at hr2
          cases hcd : chooseDate r with
          | none => rw [hcd] at hr2; simp at hr2
          | some d =>
            rw [hcd] at hr2
            dsimp only at hr2 ⊢
            cases hy : strptimeYear d with
            | none => rw [hy] at hr2; simp at hr2
            | some y =>
              dsimp only
              have hym : yearMatches folder r = isSubstr (natToStr y) folder := by
                simp [yearMatches, hcd, hy]
              by_cases hsub : isSubstr (natToStr y) folder = true
              · rw [if_pos hsub]
                have : r :: (M ++ N) = (r :: M) ++ N := rfl
                rw [this, ih (r :: M) N hrs]
                simp [List.filter_cons, hsurv, hym, hsub]
              · rw [if_neg hsub]
                have : (M ++ N) ++ [r] = M ++ (N ++ [r]) := by
                  simp [List.append_assoc]
                rw [this, ih M (N ++ [r]) hrs]
                simp only [Bool.not_eq_true] at hsub
                simp [List.filter_cons, hsurv, hym, hsub]
    · rw [if_pos (by simpa using hsupp)]
      have hsurv : survives r = false := by
        simp only [survives, hmt]
        rw [if_pos (by simpa using hsupp)]
      rw [ih M N hrs]
      simp [List.filter_cons, hsurv]

/-- Every record the loop places in the candidate list either was already
in the accumulator or is an input record that survives filtering. -/
theorem evaluate_results_aux_subset (folder : Str) :
    ∀ (rs acc l : List Record), evaluate_results_aux folder acc rs = .ok l →
      ∀ r ∈ l, r ∈ acc ∨ (r ∈ rs ∧ survives r = true) := by
  intro rs
  induction rs with
  | nil =>
    intro acc l h r hr
    simp only [evaluate_results_aux, Except.ok.injEq] at h
    exact Or.inl (h ▸ hr)
  | cons r0 rs ih =>
    intro acc l h r hr
    simp only [evaluate_results_aux] at h
    cases hmt : r0.media_type with
    | none => rw [hmt] at h; simp at h
    | some mt =>
      rw [hmt] at h
      dsimp only at h
      by_cases hsupp : SUPPORTED_TYPES.contains mt
      · rw [if_neg (by simpa using hsupp)] at h
        by_cases hname : (r0.name == some ([] : Str) || r0.title == some ([] : Str)) = true
        · rw [if_pos hname] at h
          rcases ih acc l h r hr with h1 | ⟨h2, h3⟩
          · exact Or.inl h1
          · exact Or.inr ⟨List.mem_cons_of_mem _ h2, h3⟩
        · rw [if_neg hname] at h
          by_cases hdate : (r0.release_date == some ([] : Str) ||
              r0.first_air_date == some ([] : Str)) = true
          · rw [if_pos hdate] at h
            rcases ih acc l h r hr with h1 | ⟨h2, h3⟩
            · exact Or.inl h1
            · exact Or.inr ⟨List.mem_cons_of_mem _ h2, h3⟩
          · rw [if_neg hdate] at h
            have hsurv : survives r0 = true := by
              simp only [survives, hmt]
              rw [if_neg (by simpa using hsupp), if_neg hname, if_neg hdate]
            cases hcd : chooseDate r0 with
            | none => rw [hcd] at h; simp at h
            | some d =>
              rw [hcd] at h
              dsimp only at h
              cases hy : strptimeYear d with
              | none => rw [hy] at h; simp at h
              | some y =>
                rw [hy] at h
                dsimp only at h
                by_cases hsub : isSubstr (natToStr y) folder = true
                · rw [if_pos hsub] at h
                  rcases ih _ l h r hr with h1 | ⟨h2, h3⟩
                  · rcases List.mem_cons.1 h1 with rfl | h1'
                    · exact Or.inr ⟨List.mem_cons_self _ _, hsurv⟩
                    · exact Or.inl h1'
                  · exact Or.inr ⟨List.mem_cons_of_mem _ h2, h3⟩
                · rw [if_neg hsub] at h
                  rcases ih _ l h r hr with h1 | ⟨h2, h3⟩
                  · rcases List.mem_append.1 h1 with h1' | h1'
                    · exact Or.inl h1'
                    · rcases List.mem_singleton.1 h1' with rfl
                      exact Or.inr ⟨List.mem_cons_self _ _, hsurv⟩
                  · exact Or.inr ⟨List.mem_cons_of_mem _ h2, h3⟩
      · rw [if_pos (by simpa using hsupp)] at h
        rcases ih acc l h r hr with h1 | ⟨h2, h3⟩
        · exact Or.inl h1
        · exact Or.inr ⟨List.mem_cons_of_mem _ h2, h3⟩

/-- C1 (as stated, refuted): in the general substitution pass a '?' is
replaced by '.', not removed — sanitizing "a?b" yields "a.b", not "ab". -/
theorem c1_counterexample :
    remove_invalid_characters (strL "a?b") = strL "a.b" ∧
    strL "a.b" ≠ strL "ab" := by
  exact ⟨by decide, by decide⟩

/-- C1 (amended): no '?' ever survives sanitization, but the general pass
replaces each '?' with '.', and only when some '?' is immediately
preceded by one or more dots are all '?' removed outright — witnessed by
the two concrete equations. -/
theorem c1_theorem :
    (∀ s : Str, '?' ∉ remove_invalid_characters s) ∧
    remove_invalid_characters (strL "a?") = strL "a." ∧
    remove_invalid_characters (strL "a..?b?") = strL "a..b" := by
  refine ⟨?_, by decide, by decide⟩
  intro s h
  simp only [remove_invalid_characters] at h
  by_cases hres : substPass s ∈ invalid_filenames
  · rw [if_pos hres] at h
    rcases List.mem_append.1 h with h1 | h2
    · exact substPass_not_mapped h1 (by decide)
    · simp [strL] at h2
  · rw [if_neg hres] at h
    exact substPass_not_mapped h (by decide)

/-- C7: sanitize removes every occurrence of the seven dropped characters,
leaves no ':' behind, appends a trailing '.' exactly when the substituted
result equals a reserved device name, passes through names without mapped
characters unchanged, and maps CON/NUL and ':' as documented (the Lean
embedding is a total function, so sanitize never raises). -/
theorem c7_theorem :
    (∀ s : Str, ∀ c ∈ ['<', '>', '\"', '/', '\\', '|', '*', ':'],
        c ∉ remove_invalid_characters s) ∧
    (∀ s : Str, substPass s ∈ invalid_filenames →
        remove_invalid_characters s = substPass s ++ strL ".") ∧
    (∀ s : Str, substPass s ∉ invalid_filenames →
        remove_invalid_characters s = substPass s) ∧
    (∀ s : Str, (∀ x ∈ s, x ∉ mappedChars) → s ∉ invalid_filenames →
        remove_invalid_characters s = s) ∧
    remove_invalid_characters (strL "CON") = strL "CON." ∧
    remove_invalid_characters (strL "NUL") = strL "NUL." ∧
    remove_invalid_characters (strL "a:b") = strL "a -b" := by
  refine ⟨?_, ?_, ?_, ?_, by decide, by decide, by decide⟩
  · intro s c hc h
    simp only [List.mem_cons, List.not_mem_nil, or_false] at hc
    have hcm : c ∈ mappedChars ∧ c ≠ '.' := by
      rcases hc with rfl|rfl|rfl|rfl|rfl|rfl|rfl|rfl <;> exact ⟨by decide, by decide⟩
    simp only [remove_invalid_characters] at h
    by_cases hres : substPass s ∈ invalid_filenames
    · rw [if_pos hres] at h
      rcases List.mem_append.1 h with h1 | h2
      · exact substPass_not_mapped h1 hcm.1
      · have : c = '.' := by simpa [strL] using h2
        exact hcm.2 this
    · rw [if_neg hres] at h
      exact substPass_not_mapped h hcm.1
  · intro s h
    simp only [remove_invalid_characters]
    rw [if_pos h]
  · intro s h
    simp only [remove_invalid_characters]
    rw [if_neg h]
  · intro s h1 h2
    simp only [remove_invalid_characters]
    rw [substPass_eq_self h1, if_neg h2]

/-- Witness for C7, discharging each hypothesis at a concrete input. -/
theorem c7_witness :
    ('<' ∉ remove_invalid_characters (strL "a<b")) ∧
    remove_invalid_characters (strL "CON") = substPass (strL "CON") ++ strL "." ∧
    remove_invalid_characters (strL "xy") = substPass (strL "xy") ∧
    remove_invalid_characters (strL "Movie Title") = strL "Movie Title" := by
  exact ⟨c7_theorem.1 (strL "a<b") '<' (by decide),
         c7_theorem.2.1 (strL "CON") (by decide),
         c7_theorem.2.2.1 (strL "xy") (by decide),
         c7_theorem.2.2.2.1 (strL "Movie Title") (by decide) (by decide)⟩

/-- C10: sanitize is idempotent — the substituted output contains no
mapped characters, and a reserved name with the appended dot is no longer
a reserved name. -/
theorem c10_theorem :
    ∀ s : Str, remove_invalid_characters (remove_invalid_characters s) =
      remove_invalid_characters s := by
  intro s
  simp only [remove_invalid_characters]
  by_cases hres : substPass s ∈ invalid_filenames
  · rw [if_pos hres]
    have hsub : substPass (substPass s ++ strL ".") = substPass s ++ strL "." := by
      apply substPass_eq_self
      intro x hx
      rcases List.mem_append.1 hx with h1 | h2
      · exact substPass_not_mapped h1
      · have : x = '.' := by simpa [strL] using h2
        subst this; decide
    rw [hsub]
    rw [if_neg ?hne]
    case hne =>
      intro hmem
      have h1 : (substPass s ++ strL ".").getLast? = some '.' := by
        have hdot : strL "." = ['.'] := rfl
        rw [hdot, List.getLast?_concat]
      have h2 : ∀ v ∈ invalid_filenames, v.getLast? ≠ some '.' := by decide
      exact h2 _ hmem h1
  · rw [if_neg hres, substPass_idem, if_neg hres]

/-- C2 (as stated, refuted): with two catalog results whose release year
2019 appears in the folder name "X 2019", the candidate list comes out in
reverse catalog order (each match is inserted at index 0), so catalog
order is not preserved within the matching group. -/
theorem c2_counterexample :
    evaluate_results
      [⟨1, some (strL "movie"), none, some (strL "A"), some (strL "2019-01-01"), none⟩,
       ⟨2, some (strL "movie"), none, some (strL "B"), some (strL "2019-01-01"), none⟩]
      (strL "X 2019") =
      .ok [⟨2, some (strL "movie"), none, some (strL "B"), some (strL "2019-01-01"), none⟩,
           ⟨1, some (strL "movie"), none, some (strL "A"), some (strL "2019-01-01"), none⟩] ∧
    ([⟨2, some (strL "movie"), none, some (strL "B"), some (strL "2019-01-01"), none⟩,
      ⟨1, some (strL "movie"), none, some (strL "A"), some (strL "2019-01-01"), none⟩] : List Record) ≠
      [⟨1, some (strL "movie"), none, some (strL "A"), some (strL "2019-01-01"), none⟩,
       ⟨2, some (strL "movie"), none, some (strL "B"), some (strL "2019-01-01"), none⟩] := by
  exact ⟨by rfl, by decide⟩

/-- C2 (amended): survivors whose parsed release year appears in the
original folder name come first but in reverse catalog order (each match
is inserted at the front); the other survivors keep catalog order after
them. -/
theorem c2_theorem :
    ∀ (folder : Str) (rs : List Record), (∀ r ∈ rs, recOk r = true) →
      evaluate_results rs folder =
        .ok ((rs.filter (fun r => survives r && yearMatches folder r)).reverse ++
             rs.filter (fun r => survives r && !yearMatches folder r)) := by
  intro folder rs h
  have hspec := evaluate_results_aux_spec folder rs [] [] h
  simpa [evaluate_results] using hspec

/-- Witness for C2, discharging the hypothesis at a concrete input. -/
theorem c2_witness :
    evaluate_results
      [⟨3, some (strL "tv"), some (strL "C"), none, none, some (strL "2007-05-01")⟩,
       ⟨4, some (strL "movie"), none, some (strL "D"), some (strL "1999-01-02"), none⟩]
      (strL "Folder 1999") =
      .ok (([⟨3, some (strL "tv"), some (strL "C"), none, none, some (strL "2007-05-01")⟩,
             ⟨4, some (strL "movie"), none, some (strL "D"), some (strL "1999-01-02"), none⟩].filter
              (fun r => survives r && yearMatches (strL "Folder 1999") r)).reverse ++
            [⟨3, some (strL "tv"), some (strL "C"), none, none, some (strL "2007-05-01")⟩,
             ⟨4, some (strL "movie"), none, some (strL "D"), some (strL "1999-01-02"), none⟩].filter
              (fun r => survives r && !yearMatches (strL "Folder 1999") r)) :=
  c2_theorem (strL "Folder 1999") _ (by decide)

/-- C8 (as stated, refuted): a record with no media_type key at all makes
result evaluation raise a KeyError instead of completing with the record
filtered out. -/
theorem c8_counterexample :
    evaluate_results
      [⟨0, none, some (strL "X"), none, some (strL "2019-01-01"), none⟩]
      (strL "folder") = .error (strL "KeyError: media_type") := by rfl

/-- C8 (amended): whenever result evaluation completes, every produced
candidate is an input record that passed all three filters (supported
media type, no present-but-empty name/title, no present-but-empty date);
nothing else is ever added.  Records missing the media_type key, or
surviving with no date value at all, instead raise. -/
theorem c8_theorem :
    ∀ (folder : Str) (rs l : List Record),
      evaluate_results rs folder = .ok l →
      ∀ r ∈ l, r ∈ rs ∧ survives r = true := by
  intro folder rs l h r hr
  rcases evaluate_results_aux_subset folder rs [] l h r hr with h1 | h2
  · simp at h1
  · exact h2

/-- Witness for C8, discharging the hypothesis at a concrete input. -/
theorem c8_witness :
    (⟨9, some (strL "movie"), none, some (strL "E"), some (strL "2001-02-03"), none⟩ : Record) ∈
        [⟨9, some (strL "movie"), none, some (strL "E"), some (strL "2001-02-03"), none⟩] ∧
    survives ⟨9, some (strL "movie"), none, some (strL "E"), some (strL "2001-02-03"), none⟩ = true :=
  c8_theorem (strL "f")
    [⟨9, some (strL "movie"), none, some (strL "E"), some (strL "2001-02-03"), none⟩]
    [⟨9, some (strL "movie"), none, some (strL "E"), some (strL "2001-02-03"), none⟩]
    (by rfl) _ (by decide)

/-- C4: the manual-entry final pass calls __evaluate_results with one
argument where two are required, so any truthy search result raises a
TypeError instead of completing the search/evaluate/confirm pass. -/
theorem c4_theorem :
    ∀ rs : List Record, identify_final_pass (some rs) =
      .error (strL "TypeError: __evaluate_results() missing 1 required positional argument") :=
  fun _ => rfl

/-- C3 (as stated, refuted): the TV single-file path moves the file with a
bare os.rename (Rename.py line 131); with the source file absent the
exception propagates out of RenameMedia.show. -/
theorem c3_counterexample :
    showMedia false false (fun _ _ => SeasonResult.notFound []) ⟨[]⟩
      (strL "/a/x.mkv") 1 (strL "Show") 2019 =
      .error (strL "FileNotFoundError") := by rfl

/-- C3 (amended): every move that goes through the __rename primitive
never propagates — when the underlying os.rename fails, the failure is
logged and the filesystem is returned unchanged. -/
theorem c3_theorem :
    ∀ (fs : FS) (from_location to_location reason : Str),
      osRename fs from_location (remove_unicode to_location) = .error reason →
      rename fs from_location to_location =
        (fs, [strL "OSError for " ++ remove_unicode to_location ++
              strL " For:\n " ++ reason]) := by
  intro fs a b r h
  simp only [rename]
  rw [h]

/-- Witness for C3, discharging the hypothesis at a concrete input. -/
theorem c3_witness :
    rename ⟨[]⟩ (strL "a") (strL "b") =
      (⟨[]⟩, [strL "OSError for " ++ remove_unicode (strL "b") ++
              strL " For:\n " ++ strL "FileNotFoundError"]) :=
  c3_theorem ⟨[]⟩ (strL "a") (strL "b") (strL "FileNotFoundError") (by rfl)

/-- C6: a TV file whose season lookup returns 404, or whose episode number
exceeds the episode count of the fetched season, is skipped with a log
message and the filesystem is returned unchanged. -/
theorem c6_theorem :
    ∀ (validate debug : Bool) (lookup : Nat → Nat → SeasonResult) (fs : FS)
      (show_folder folder show_folder_name : Str) (id : Nat) (file : Str)
      (season episode : Nat),
      fileExtension file ∉ INVALID_EXTENSIONS →
      findSeasonEpisode (stripExtension file) = some (season, episode) →
      ((∀ resp, lookup id season = SeasonResult.notFound resp →
          showProcessFile validate debug lookup fs show_folder folder
              show_folder_name id file =
            .ok (fs, [strL "Requested season " ++ natToStr season ++
              strL " for id " ++ natToStr id ++ strL " and got", resp], [])) ∧
       (∀ info, lookup id season = SeasonResult.found info →
          info.episodes.length < episode →
          showProcessFile validate debug lookup fs show_folder folder
              show_folder_name id file =
            .ok (fs, [strL "Episode S" ++ convert_int_to_str season ++
              strL "E" ++ convert_int_to_str episode ++
              strL " doesn't appear to exist, so skipping."], []))) := by
  intro v dbg lookup fs sf fo sfn id file season episode hext hse
  constructor
  · intro resp hlk
    simp only [showProcessFile]
    rw [if_neg hext, hse]
    dsimp only
    rw [hlk]
  · intro info hlk hcount
    simp only [showProcessFile]
    rw [if_neg hext, hse]
    dsimp only
    rw [hlk]
    dsimp only
    rw [if_pos hcount]

/-- Witness for C6, discharging the hypotheses at concrete inputs. -/
theorem c6_witness :
    showProcessFile false false (fun _ _ => SeasonResult.notFound (strL "nope"))
        ⟨[]⟩ (strL "/a/S (2019)") (strL "/a/S (2019)") (strL "S (2019)") 7
        (strL "x.S03E02.mkv") =
      .ok (⟨[]⟩, [strL "Requested season " ++ natToStr 3 ++ strL " for id " ++
        natToStr 7 ++ strL " and got", strL "nope"], []) ∧
    showProcessFile false false
        (fun _ _ => SeasonResult.found ⟨strL "2019-04-01", [⟨strL "Pilot"⟩]⟩)
        ⟨[]⟩ (strL "/a/S (2019)") (strL "/a/S (2019)") (strL "S (2019)") 7
        (strL "x.S01E02.mkv") =
      .ok (⟨[]⟩, [strL "Episode S" ++ convert_int_to_str 1 ++ strL "E" ++
        convert_int_to_str 2 ++
        strL " doesn't appear to exist, so skipping."], []) := by
  constructor
  · exact (c6_theorem false false (fun _ _ => SeasonResult.notFound (strL "nope"))
      ⟨[]⟩ (strL "/a/S (2019)") (strL "/a/S (2019)") (strL "S (2019)") 7
      (strL "x.S03E02.mkv") 3 2 (by decide) (by decide)).1 (strL "nope") rfl
  · exact (c6_theorem false false
      (fun _ _ => SeasonResult.found ⟨strL "2019-04-01", [⟨strL "Pilot"⟩]⟩)
      ⟨[]⟩ (strL "/a/S (2019)") (strL "/a/S (2019)") (strL "S (2019)") 7
      (strL "x.S01E02.mkv") 1 2 (by decide) (by decide)).2
      ⟨strL "2019-04-01", [⟨strL "Pilot"⟩]⟩ rfl (by decide)

/-- C9: the single movie file "Movie.Title.2020.1080p.mkv" with identity
name "Movie Title" and year 2020 is planned as "Movie Title (2020) [1080p].mkv",
the sibling folder "Movie Title (2020)" is created, and the file is moved
to "Movie Title (2020)/Movie Title (2020) [1080p].mkv". -/
theorem c9_theorem :
    movie false ⟨[(strL "Movie.Title.2020.1080p.mkv", FKind.file)]⟩
      (strL "Movie.Title.2020.1080p.mkv") (strL "Movie Title") 2020 =
    (⟨[(strL "Movie Title (2020)/Movie Title (2020) [1080p].mkv", FKind.file),
       (strL "Movie Title (2020)", FKind.dir)]⟩,
     [strL "Movie.Title.2020.1080p.mkv", strL "Movie Title", strL "2020",
      strL "Renaming 'Movie.Title.2020.1080p.mkv' to 'Movie Title (2020)/Movie Title (2020) [1080p].mkv'"],
     [strL "Movie Title (2020) [1080p].mkv"]) := by rfl

theorem fst_ite_pair {α β : Type} {c : Prop} [Decidable c] (x : α) (a b : β) :
    (ite c (x, a) (x, b)).1 = x := by
  split <;> rfl

theorem rbf_validate_fs (fs : FS) (folder name : Str) (year : Nat) :
    (rename_base_folder true fs folder name year).1 = fs := by
  simp [rename_base_folder]

theorem rbf_validate_folder (fs : FS) (folder name : Str) (year : Nat) :
    (rename_base_folder true fs folder name year).2.1 = folder := by
  simp [rename_base_folder]

theorem rbf_name (v : Bool) (fs : FS) (folder name : Str) (year : Nat) :
    (rename_base_folder v fs folder name year).2.2.1 =
      name ++ strL " (" ++ natToStr year ++ strL ")" := by
  simp [rename_base_folder]

/-- The planned component of one show-loop iteration depends only on the
lookup, the id, the show folder name and the file — neither the
filesystem, the folder paths, validate nor debug influence it. -/
theorem spf_plan (v dbg : Bool) (lookup : Nat → Nat → SeasonResult) (fs : FS)
    (sf folder sfn : Str) (id : Nat) (file : Str) :
    Except.map (fun o => o.2.2)
        (showProcessFile v dbg lookup fs sf folder sfn id file) =
      spfPlan lookup id sfn file := by
  simp only [showProcessFile, spfPlan]
  split
  · rfl
  · split
    · rfl
    · split
      · rfl
      · split
        · rfl
        · split
          · rfl
          · rfl

/-- With validate set, one show-loop iteration leaves the filesystem
unchanged. -/
theorem spf_validate_fs (dbg : Bool) (lookup : Nat → Nat → SeasonResult)
    (fs : FS) (sf folder sfn : Str) (id : Nat) (file : Str)
    (o : FS × List Str × List (Str × Str × Str))
    (h : showProcessFile true dbg lookup fs sf folder sfn id file = .ok o) :
    o.1 = fs := by
  simp only [showProcessFile] at h
  split at h
  · rw [Except.ok.injEq] at h; subst h; rfl
  · split at h
    · rw [Except.ok.injEq] at h; subst h; rfl
    · split at h
      · rw [Except.ok.injEq] at h; subst h; rfl
      · split at h
        · rw [Except.ok.injEq] at h; subst h; rfl
        · split at h
          · exact Except.noConfusion h
          · rw [Except.ok.injEq] at h
            subst h
            exact fst_ite_pair _ _ _

/-- With validate set, the whole show loop leaves the filesystem
unchanged. -/
theorem showLoop_validate_fs (dbg : Bool) (lookup : Nat → Nat → SeasonResult)
    (id : Nat) (sf folder sfn : Str) :
    ∀ (files : List Str) (fs : FS) (logs : List Str)
      (pl : List (Str × Str × Str)) (o : FS × List Str × List (Str × Str × Str)),
      showLoop true dbg lookup id sf folder sfn files fs logs pl = .ok o →
      o.1 = fs := by
  intro files
  induction files with
  | nil =>
    intro fs logs pl o h
    simp only [showLoop] at h
    rw [Except.ok.injEq] at h
    subst h
    rfl
  | cons f rest ih =>
    intro fs logs pl o h
    simp only [showLoop] at h
    cases hspf : showProcessFile true dbg lookup fs sf folder sfn id f with
    | error e => rw [hspf] at h; exact Except.noConfusion h
    | ok out =>
      rw [hspf] at h
      dsimp only at h
      have h1 := spf_validate_fs dbg lookup fs sf folder sfn id f out hspf
      have h2 := ih out.1 _ _ o h
      rw [h2, h1]

/-- The planned component of the show loop is the fold of the per-file
plans, independently of the filesystem, the folder paths, validate and
debug. -/
theorem showLoop_plan (v dbg : Bool) (lookup : Nat → Nat → SeasonResult)
    (id : Nat) (sf folder sfn : Str) :
    ∀ (files : List Str) (fs : FS) (logs : List Str)
      (pl : List (Str × Str × Str)),
      Except.map (fun o => o.2.2)
          (showLoop v dbg lookup id sf folder sfn files fs logs pl) =
        Except.map (fun ps => pl ++ ps) (showLoopPlan lookup id sfn files) := by
  intro files
  induction files with
  | nil =>
    intro fs logs pl
    simp [showLoop, showLoopPlan, Except.map]
  | cons f rest ih =>
    intro fs logs pl
    simp only [showLoop, showLoopPlan]
    have hp := spf_plan v dbg lookup fs sf folder sfn id f
    cases hspf : showProcessFile v dbg lookup fs sf folder sfn id f with
    | error e =>
      rw [hspf] at hp
      have hp' : spfPlan lookup id sfn f = .error e := by rw [← hp]; rfl
      rw [hp']
      simp [Except.map]
    | ok out =>
      rw [hspf] at hp
      have hp' : spfPlan lookup id sfn f = .ok out.2.2 := by rw [← hp]; rfl
      rw [hp']
      dsimp only
      rw [ih out.1 (logs ++ out.2.1) (pl ++ out.2.2)]
      cases hrest : showLoopPlan lookup id sfn rest with
      | error e => simp [Except.map]
      | ok ps => simp [Except.map, List.append_assoc]

/-- With validate set, RenameMedia.show performs no filesystem mutation. -/
theorem showMedia_validate_fs (dbg : Bool) (lookup : Nat → Nat → SeasonResult)
    (fs : FS) (item : Str) (id : Nat) (name : Str) (year : Nat)
    (o : FS × List Str × List (Str × Str × Str))
    (h : showMedia true dbg lookup fs item id name year = .ok o) : o.1 = fs := by
  simp only [showMedia] at h
  split at h
  · have h1 := showLoop_validate_fs dbg lookup id _ _ _ _ _ _ _ o h
    rw [h1, rbf_validate_fs]
  · rw [if_pos True.intro] at h
    exact showLoop_validate_fs dbg lookup id _ _ _ _ _ _ _ o h

/-- The planned triples of RenameMedia.show agree between a validate run
and a non-validate run whenever both complete. -/
theorem showMedia_plan_eq (dbg : Bool) (lookup : Nat → Nat → SeasonResult)
    (fs : FS) (item : Str) (id : Nat) (name : Str) (year : Nat)
    (oF oT : FS × List Str × List (Str × Str × Str))
    (hF : showMedia false dbg lookup fs item id name year = .ok oF)
    (hT : showMedia true dbg lookup fs item id name year = .ok oT) :
    oF.2.2 = oT.2.2 := by
  simp only [showMedia] at hF hT
  by_cases hdir : isdir fs item = true
  · rw [if_pos hdir] at hF hT
    rw [rbf_name] at hF hT
    have e1 := congrArg (Except.map (fun o => o.2.2)) hF
    have e2 := congrArg (Except.map (fun o => o.2.2)) hT
    rw [showLoop_plan] at e1 e2
    rw [e1] at e2
    simpa [Except.map] using e2
  · rw [if_neg hdir] at hF hT
    rw [if_pos True.intro] at hT
    rw [if_neg (by simp)] at hF
    cases hos : osRename
        (if !isdir fs (osJoin (List.intercalate ['/'] (splitOnChar '/' item).dropLast)
            (remove_invalid_characters name ++ strL " (" ++ natToStr year ++ strL ")"))
         then mkdirFS fs (osJoin (List.intercalate ['/'] (splitOnChar '/' item).dropLast)
            (remove_invalid_characters name ++ strL " (" ++ natToStr year ++ strL ")"))
         else fs)
        item
        (osJoin (osJoin (List.intercalate ['/'] (splitOnChar '/' item).dropLast)
            (remove_invalid_characters name ++ strL " (" ++ natToStr year ++ strL ")"))
          ((splitOnChar '/' item).getLastD [])) with
    | error e => rw [hos] at hF; exact Except.noConfusion hF
    | ok fs2 =>
      rw [hos] at hF
      dsimp only at hF
      have e1 := congrArg (Except.map (fun o => o.2.2)) hF
      have e2 := congrArg (Except.map (fun o => o.2.2)) hT
      rw [showLoop_plan] at e1 e2
      rw [e1] at e2
      simpa [Except.map] using e2

/-- With validate set, the movie directory loop leaves the filesystem
unchanged. -/
theorem mdl_validate_fs (folder m : Str) :
    ∀ (files : List Str) (fs : FS) (logs planned : List Str),
      (movieDirLoop true folder m files fs logs planned).1 = fs := by
  intro files
  induction files with
  | nil => intro fs logs planned; rfl
  | cons f rest ih =>
    intro fs logs planned
    simp only [movieDirLoop]
    split
    · exact ih fs logs planned
    · rw [if_pos True.intro]
      exact ih fs _ _

/-- The planned component of the movie directory loop is the per-file
plan fold, independently of the filesystem and validate. -/
theorem mdl_plan (v : Bool) (folder m : Str) :
    ∀ (files : List Str) (fs : FS) (logs planned : List Str),
      (movieDirLoop v folder m files fs logs planned).2.2 =
        planned ++ movieDirPlan folder m files := by
  intro files
  induction files with
  | nil => intro fs logs planned; simp [movieDirLoop, movieDirPlan]
  | cons f rest ih =>
    intro fs logs planned
    simp only [movieDirLoop, movieDirPlan, List.filterMap_cons, moviePlanOfFile]
    split
    · rw [ih fs logs planned]
      simp [movieDirPlan]
    · rw [ih _ _ _]
      simp [movieDirPlan, List.append_assoc]

/-- When every file finds its resolution in its own name, the parent-
folder fallback of __get_resolution is never consulted and the movie
plan does not depend on the folder path. -/
theorem mdp_folder_indep (m : Str) :
    ∀ (files : List Str), (∀ f ∈ files, (findResolution (stripExtension f)).isSome = true) →
      ∀ (folder1 folder2 : Str),
        movieDirPlan folder1 m files = movieDirPlan folder2 m files := by
  intro files
  induction files with
  | nil => intro _ folder1 folder2; rfl
  | cons f rest ih =>
    intro h folder1 folder2
    have hf := h f (List.mem_cons_self _ _)
    have hrest := fun g hg => h g (List.mem_cons_of_mem _ hg)
    obtain ⟨r, hr⟩ := Option.isSome_iff_exists.1 hf
    simp only [movieDirPlan, List.filterMap_cons, moviePlanOfFile] at ih ⊢
    have hres : ∀ folder : Str,
        get_resolution (stripExtension f) folder = strL " [" ++ r ++ strL "]" := by
      intro folder
      simp [get_resolution, hr]
    by_cases hext : fileExtension f ∈ INVALID_EXTENSIONS
    · simp only [if_pos hext]
      exact ih hrest folder1 folder2
    · simp only [if_neg hext]
      rw [hres folder1, hres folder2, ih hrest folder1 folder2]

/-- With validate set, RenameMedia.movie performs no filesystem
mutation. -/
theorem movie_validate_fs (fs : FS) (item name : Str) (year : Nat) :
    (movie true fs item name year).1 = fs := by
  simp only [movie]
  split
  · rw [mdl_validate_fs, rbf_validate_fs]
  · rw [if_pos True.intro]
    simp

theorem isPrefixOf_concat_self_false (b : Str) (c : Char) :
    (b ++ [c]).isPrefixOf b = false := by
  by_contra h
  rw [Bool.not_eq_false, List.isPrefixOf_iff_prefix] at h
  have := h.length_le
  simp at this

theorem isPrefixOf_self_append (l t : Str) : l.isPrefixOf (l ++ t) = true := by
  rw [ List.isPrefixOf_iff_prefix]
  exact List.prefix_append l t

/-- Renaming `a` to `b` turns direct children of `a` into direct children
of `b` with the same names, provided nothing already sat under `b`. -/
theorem childNameOf_renameEntry {a b : Str} (e : Str × FKind)
    (hpre : (b ++ ['/']).isPrefixOf e.1 = false) :
    childNameOf b (renameEntry a b e).1 = childNameOf a e.1 := by
  simp only [renameEntry]
  by_cases h1 : e.1 = a
  · rw [if_pos h1]
    dsimp only
    rw [h1]
    simp [childNameOf, isPrefixOf_concat_self_false]
  · rw [if_neg h1]
    by_cases h2 : (a ++ ['/']).isPrefixOf e.1 = true
    · rw [if_pos h2]
      dsimp only
      obtain ⟨t, ht⟩ := List.isPrefixOf_iff_prefix.1 h2
      have hdrop : e.1.drop (a.length + 1) = t := by
        rw [← ht, show a.length + 1 = (a ++ ['/']).length by simp]
        exact List.drop_left _ _
      have key : ∀ base : Str, childNameOf base ((base ++ ['/']) ++ t) =
          (if t = [] then none else if t.contains '/' then none else some t) := by
        intro base
        have hd : ((base ++ ['/']) ++ t).drop (base.length + 1) = t := by
          rw [show base.length + 1 = (base ++ ['/']).length by simp]
          exact List.drop_left _ _
        simp [childNameOf, isPrefixOf_self_append, hd]
      rw [hdrop, ← ht, List.append_cons, key b, key a]
    · rw [if_neg h2]
      rw [Bool.not_eq_true] at h2
      simp [childNameOf, h2, hpre]

theorem listdir_rename_list (a b : Str) :
    ∀ (l : List (Str × FKind)),
      (∀ e ∈ l, (b ++ ['/']).isPrefixOf e.1 = false) →
      List.filterMap (fun e => childNameOf b e.1) (l.map (renameEntry a b)) =
        List.filterMap (fun e => childNameOf a e.1) l := by
  intro l
  induction l with
  | nil => intro _; rfl
  | cons e rest ih =>
    intro h2
    simp only [List.map_cons, List.filterMap_cons]
    rw [childNameOf_renameEntry e (h2 e (List.mem_cons_self _ _))]
    have ih' := ih (fun x hx => h2 x (List.mem_cons_of_mem _ hx))
    cases childNameOf a e.1 with
    | none => exact ih'
    | some nm => rw [ih']

/-- When the destination folder is absent, its name has no problem
unicode, and the source exists, the non-validate base-folder rename
performs the move and hands back the new folder path. -/
theorem rbf_false_rename (fs : FS) (folder name : Str) (year : Nat)
    (hex : pexists fs (newBaseFolder folder
      (name ++ strL " (" ++ natToStr year ++ strL ")")) = false)
    (hunic : remove_unicode (newBaseFolder folder
        (name ++ strL " (" ++ natToStr year ++ strL ")")) =
      newBaseFolder folder (name ++ strL " (" ++ natToStr year ++ strL ")"))
    (hsrc : pexists fs folder = true) :
    rename_base_folder false fs folder name year =
      (⟨fs.entries.map (renameEntry (normPath folder)
          (normPath (newBaseFolder folder
            (name ++ strL " (" ++ natToStr year ++ strL ")"))))⟩,
       newBaseFolder folder (name ++ strL " (" ++ natToStr year ++ strL ")"),
       name ++ strL " (" ++ natToStr year ++ strL ")",
       [strL "Renaming:\n" ++ folder ++ strL "\nto:\n" ++
        newBaseFolder folder (name ++ strL " (" ++ natToStr year ++ strL ")")]) := by
  simp only [rename_base_folder, rename, osRename, hex, hunic, hsrc]
  simp

/-- The planned destination names of the movie directory branch agree
between validate and non-validate runs, provided the destination folder
is fresh (absent, nothing filed under it, no problem-unicode in its
name) and every listed file carries its own resolution marker. -/
theorem movie_dir_plan (fs : FS) (item name : Str) (year : Nat)
    (hdir : isdir fs item = true)
    (hunic : remove_unicode (newBaseFolder item (remove_invalid_characters name ++
        strL " (" ++ natToStr year ++ strL ")")) =
      newBaseFolder item (remove_invalid_characters name ++
        strL " (" ++ natToStr year ++ strL ")"))
    (hex : pexists fs (newBaseFolder item (remove_invalid_characters name ++
        strL " (" ++ natToStr year ++ strL ")")) = false)
    (hunder : ∀ e ∈ fs.entries,
      ((normPath (newBaseFolder item (remove_invalid_characters name ++
          strL " (" ++ natToStr year ++ strL ")"))) ++ ['/']).isPrefixOf e.1 = false)
    (hres : ∀ f ∈ listdir fs item, (findResolution (stripExtension f)).isSome = true) :
    (movie true fs item name year).2.2 = (movie false fs item name year).2.2 := by
  have hsrc : pexists fs item = true := by simp [pexists, hdir]
  simp only [movie]
  rw [if_pos hdir, if_pos hdir]
  rw [rbf_false_rename fs item (remove_invalid_characters name) year hex hunic hsrc]
  dsimp only
  rw [rbf_validate_fs, rbf_validate_folder, rbf_name]
  rw [mdl_plan, mdl_plan]
  have hld : listdir
      (⟨fs.entries.map (renameEntry (normPath item)
        (normPath (newBaseFolder item (remove_invalid_characters name ++
          strL " (" ++ natToStr year ++ strL ")"))))⟩ : FS)
      (newBaseFolder item (remove_invalid_characters name ++
        strL " (" ++ natToStr year ++ strL ")")) = listdir fs item := by
    simp only [listdir]
    exact listdir_rename_list (normPath item) _ fs.entries hunder
  rw [hld]
  simp only [List.nil_append]
  exact mdp_folder_indep _ (listdir fs item) hres item _

/-- The planned destination name of the movie single-file branch does not
depend on validate. -/
theorem movie_file_plan (fs : FS) (item name : Str) (year : Nat)
    (h : isdir fs item = false) :
    (movie true fs item name year).2.2 = (movie false fs item name year).2.2 := by
  simp only [movie]
  simp only [if_neg (show ¬ (isdir fs item = true) by simp [h])]

/-- C5 (as stated, refuted): a movie directory under a parent whose name
carries the resolution marker plans "Movie (2020) [1080p].mkv" in
validate mode but "Movie (2020).mkv" in a real run — after the base
folder is renamed, __get_resolution's parent-of-parent fallback looks at
"Movie (2020)" instead of "files.1080p", so the planned destination
name strings differ between the two modes. -/
theorem c5_counterexample :
    (movie true ⟨[(strL "/files.1080p", FKind.dir),
        (strL "/files.1080p/Movie.2020", FKind.dir),
        (strL "/files.1080p/Movie.2020/m.mkv", FKind.file)]⟩
      (strL "/files.1080p/Movie.2020") (strL "Movie") 2020).2.2 =
      [strL "Movie (2020) [1080p].mkv"] ∧
    (movie false ⟨[(strL "/files.1080p", FKind.dir),
        (strL "/files.1080p/Movie.2020", FKind.dir),
        (strL "/files.1080p/Movie.2020/m.mkv", FKind.file)]⟩
      (strL "/files.1080p/Movie.2020") (strL "Movie") 2020).2.2 =
      [strL "Movie (2020).mkv"] ∧
    [strL "Movie (2020) [1080p].mkv"] ≠ [strL "Movie (2020).mkv"] := by
  exact ⟨by rfl, by rfl, by decide⟩

/-- C5 (amended): with validate enabled, the show and movie pipelines
perform zero filesystem mutations; the planned destination name strings
agree with a non-validate run for the show pipeline (whenever both runs
complete) and for the movie single-file path unconditionally, and for
the movie directory path provided the destination folder is fresh (not
already present, nothing filed under it, no problem-unicode in its name)
and every listed file carries its own resolution marker (otherwise the
renamed-folder listing or the parent-folder resolution fallback can
change the planned names, as the counterexample shows). -/
theorem c5_theorem :
    (∀ (debug : Bool) (lookup : Nat → Nat → SeasonResult) (fs : FS)
        (item : Str) (id : Nat) (name : Str) (year : Nat)
        (o : FS × List Str × List (Str × Str × Str)),
        showMedia true debug lookup fs item id name year = .ok o → o.1 = fs) ∧
    (∀ (fs : FS) (item name : Str) (year : Nat),
        (movie true fs item name year).1 = fs) ∧
    (∀ (debug : Bool) (lookup : Nat → Nat → SeasonResult) (fs : FS)
        (item : Str) (id : Nat) (name : Str) (year : Nat)
        (oF oT : FS × List Str × List (Str × Str × Str)),
        showMedia false debug lookup fs item id name year = .ok oF →
        showMedia true debug lookup fs item id name year = .ok oT →
        oF.2.2 = oT.2.2) ∧
    (∀ (fs : FS) (item name : Str) (year : Nat), isdir fs item = false →
        (movie true fs item name year).2.2 = (movie false fs item name year).2.2) ∧
    (∀ (fs : FS) (item name : Str) (year : Nat),
        isdir fs item = true →
        remove_unicode (newBaseFolder item (remove_invalid_characters name ++
            strL " (" ++ natToStr year ++ strL ")")) =
          newBaseFolder item (remove_invalid_characters name ++
            strL " (" ++ natToStr year ++ strL ")") →
        pexists fs (newBaseFolder item (remove_invalid_characters name ++
            strL " (" ++ natToStr year ++ strL ")")) = false →
        (∀ e ∈ fs.entries,
          ((normPath (newBaseFolder item (remove_invalid_characters name ++
              strL " (" ++ natToStr year ++ strL ")"))) ++ ['/']).isPrefixOf e.1 = false) →
        (∀ f ∈ listdir fs item, (findResolution (stripExtension f)).isSome = true) →
        (movie true fs item name year).2.2 = (movie false fs item name year).2.2) := by
  refine ⟨?_, ?_, ?_, ?_, ?_⟩
  · intro dbg lookup fs item id name year o h
    exact showMedia_validate_fs dbg lookup fs item id name year o h
  · intro fs item name year
    exact movie_validate_fs fs item name year
  · intro dbg lookup fs item id name year oF oT hF hT
    exact showMedia_plan_eq dbg lookup fs item id name year oF oT hF hT
  · intro fs item name year h
    exact movie_file_plan fs item name year h
  · intro fs item name year hdir hunic hex hunder hres
    exact movie_dir_plan fs item name year hdir hunic hex hunder hres

/-- Witness for C5, discharging every hypothesis at concrete inputs. -/
theorem c5_witness :
    (((⟨[(strL "/a/x.mkv", FKind.file)]⟩ : FS), ([] : List Str),
        ([] : List (Str × Str × Str))).1 =
      (⟨[(strL "/a/x.mkv", FKind.file)]⟩ : FS)) ∧
    (((⟨[(strL "/a/S (2019)/x.mkv", FKind.file), (strL "/a/S (2019)", FKind.dir)]⟩ : FS),
        ([] : List Str), ([] : List (Str × Str × Str))).2.2 =
      ((⟨[(strL "/a/x.mkv", FKind.file)]⟩ : FS), ([] : List Str),
        ([] : List (Str × Str × Str))).2.2) ∧
    ((movie true (⟨[(strL "m.mkv", FKind.file)]⟩ : FS) (strL "m.mkv") (strL "M") 2020).2.2 =
      (movie false (⟨[(strL "m.mkv", FKind.file)]⟩ : FS) (strL "m.mkv") (strL "M") 2020).2.2) ∧
    ((movie true (⟨[(strL "/m/Old.2020", FKind.dir),
        (strL "/m/Old.2020/f.1080p.mkv", FKind.file)]⟩ : FS)
        (strL "/m/Old.2020") (strL "New") 2020).2.2 =
      (movie false (⟨[(strL "/m/Old.2020", FKind.dir),
        (strL "/m/Old.2020/f.1080p.mkv", FKind.file)]⟩ : FS)
        (strL "/m/Old.2020") (strL "New") 2020).2.2) := by
  refine ⟨?_, ?_, ?_, ?_⟩
  · exact c5_theorem.1 false (fun _ _ => SeasonResult.notFound [])
      (⟨[(strL "/a/x.mkv", FKind.file)]⟩ : FS) (strL "/a/x.mkv") 1 (strL "S") 2019
      ((⟨[(strL "/a/x.mkv", FKind.file)]⟩ : FS), [], []) (by rfl)
  · exact c5_theorem.2.2.1 false (fun _ _ => SeasonResult.notFound [])
      (⟨[(strL "/a/x.mkv", FKind.file)]⟩ : FS) (strL "/a/x.mkv") 1 (strL "S") 2019
      ((⟨[(strL "/a/S (2019)/x.mkv", FKind.file), (strL "/a/S (2019)", FKind.dir)]⟩ : FS), [], [])
      ((⟨[(strL "/a/x.mkv", FKind.file)]⟩ : FS), [], []) (by rfl) (by rfl)
  · exact c5_theorem.2.2.2.1 (⟨[(strL "m.mkv", FKind.file)]⟩ : FS)
      (strL "m.mkv") (strL "M") 2020 (by decide)
  · exact c5_theorem.2.2.2.2
      (⟨[(strL "/m/Old.2020", FKind.dir), (strL "/m/Old.2020/f.1080p.mkv", FKind.file)]⟩ : FS)
      (strL "/m/Old.2020") (strL "New") 2020
      (by decide) (by decide) (by decide) (by decide) (by decide)
